import Mathlib

/-!
Verification of the msauth-browser token engine against its specification.

The definitions below are a shallow embedding of the Python sources
`msauth_browser/src/tokens.py`, `msauth_browser/src/auth.py` and
`msauth_browser/console.py`.  Python dynamic values that can appear in the
token state are modelled by `JsonValue`; Python exceptions by `PyError`
(keeping the exception class, since several distinct classes — all
subclasses of `ValueError` — can be raised by the parsing code).
Machine integers are modelled by `Nat`/`Int`; byte strings by `List Nat`
with entries below 256.  Bit operations of the C base64 decoder are
rendered with `/`, `%`, `*` (equal on naturals to the shifts and masks
used in CPython `binascii.c`).
-/

/-- Python exception classes that the embedded code can raise.
`binascii.Error`, `json.JSONDecodeError` and `UnicodeDecodeError` are all
subclasses of `ValueError` in CPython; the first string field records the
concrete class, so that claims about the error *kind* can be stated. -/
inductive PyError where
  /-- `ValueError` or one of its subclasses; first component names the
  concrete class, second carries the message. -/
  | valueError (cls : String) (msg : String)
  /-- `AttributeError` (e.g. calling `.get` on a non-dict). -/
  | attributeError (msg : String)
  /-- `TypeError` (e.g. `datetime.fromtimestamp` on a non-number). -/
  | typeError (msg : String)
  /-- `OverflowError`/out-of-range errors from `datetime.fromtimestamp`. -/
  | overflowError (msg : String)
deriving Repr, DecidableEq

/-- Whether the raised exception is `ValueError` or one of its subclasses
(the code analogue of the specification error `MalformedTokenError`). -/
def PyError.isValueError : PyError → Bool
  | .valueError _ _ => true
  | _ => false

/-- Python values that flow through the token code: results of
`json.loads`, entries of response dictionaries, token-manager fields.
JSON numbers are modelled at integer granularity (the `exp`, `expires_in`
values the program manipulates are integers; fractional JSON numbers are
outside the model and are rejected by the embedded parser). -/
inductive JsonValue where
  | null
  | bool (b : Bool)
  | num (n : Int)
  | str (s : String)
  | arr (elems : List JsonValue)
  | obj (members : List (String × JsonValue))

/-- Python truthiness (`if x:`) for the modelled values. -/
def jsonTruthy : JsonValue → Bool
  | .null => false
  | .bool b => b
  | .num n => n != 0
  | .str s => s != ""
  | .arr es => !es.isEmpty
  | .obj ms => !ms.isEmpty

/-- `v.isString` is true exactly for string values. -/
def JsonValue.isString : JsonValue → Bool
  | .str _ => true
  | _ => false

/-- Value lookup in an association list (a Python `dict` whose insertion
kept the first position of every key, as `dictInsert` below does). -/
def assocGet (ms : List (String × JsonValue)) (k : String) : Option JsonValue :=
  match ms with
  | [] => none
  | (k₀, v₀) :: rest => if k₀ = k then some v₀ else assocGet rest k

/-- `d[k] = v` on a Python dict: replace in place when the key exists,
append otherwise (dicts keep first-insertion order). -/
def dictInsert (ms : List (String × JsonValue)) (k : String) (v : JsonValue) :
    List (String × JsonValue) :=
  match ms with
  | [] => [(k, v)]
  | (k₀, v₀) :: rest =>
      if k₀ = k then (k₀, v) :: rest else (k₀, v₀) :: dictInsert rest k v

/-- Python `dict.get(k, default)`; raises `AttributeError` when the
receiver is not a dict (e.g. `payload.get` with a JSON array payload). -/
def pyGet (v : JsonValue) (k : String) (dflt : JsonValue) :
    Except PyError JsonValue :=
  match v with
  | .obj ms => .ok ((assocGet ms k).getD dflt)
  | _ => .error (.attributeError "object has no attribute get")

/- Characters that the token-screening pipeline treats specially are
built by code point. -/

/-- The double-quote character. -/
def quoteChar : Char := Char.ofNat 34

/-- The backslash character. -/
def backslashChar : Char := Char.ofNat 92

/-- The opening-brace character. -/
def lbraceChar : Char := Char.ofNat 123

/-- The closing-brace character. -/
def rbraceChar : Char := Char.ofNat 125

/-! ## Base64 (CPython `binascii.a2b_base64`, non-strict mode)

`tokens.py` decodes with `base64.urlsafe_b64decode(data + padding)` where
`padding = "=" * (-len(data) % 4)`.  `urlsafe_b64decode` translates
`-` to `+` and `_` to `/` and calls `b64decode` with `validate=False`,
i.e. `binascii.a2b_base64` in non-strict mode: characters outside the
alphabet are skipped, `=` is padding only once two data characters of the
current quadruple have been seen, and decoding stops successfully at
complete padding.  At end of input an incomplete quadruple raises
`binascii.Error` (a `ValueError` subclass). -/

/-- Value of a character in the standard base64 alphabet, `none` for
characters that are skipped (`=` handled separately by the loop). -/
def b64Val (c : Char) : Option Nat :=
  let n := c.toNat
  if 65 ≤ n ∧ n ≤ 90 then some (n - 65)          -- A-Z
  else if 97 ≤ n ∧ n ≤ 122 then some (n - 97 + 26) -- a-z
  else if 48 ≤ n ∧ n ≤ 57 then some (n - 48 + 52)  -- 0-9
  else if c = '+' then some 62
  else if c = '/' then some 63
  else none

/-- The `-` to `+`, `_` to `/` translation of `urlsafe_b64decode`. -/
def urlsafeTranslate (c : Char) : Char :=
  if c = '-' then '+' else if c = '_' then '/' else c

/-- The decode loop of `binascii.a2b_base64` (non-strict): state is the
position in the current quadruple, the pending bits (`leftchar`), and the
count of consecutive padding characters seen for this quadruple. -/
def a2bLoop (cs : List Char) (quadPos leftchar pads : Nat) (acc : List Nat) :
    Except PyError (List Nat) :=
  match cs with
  | [] =>
      if quadPos = 0 then .ok acc
      else if quadPos = 1 then
        .error (.valueError "binascii.Error"
          "number of data characters cannot be 1 more than a multiple of 4")
      else .error (.valueError "binascii.Error" "Invalid padding")
  | c :: rest =>
      if c = '=' then
        if 2 ≤ quadPos then
          if 4 ≤ quadPos + (pads + 1) then .ok acc
          else a2bLoop rest quadPos leftchar (pads + 1) acc
        else a2bLoop rest quadPos leftchar pads acc
      else
        match b64Val c with
        | none => a2bLoop rest quadPos leftchar pads acc
        | some v =>
            match quadPos with
            | 0 => a2bLoop rest 1 v 0 acc
            | 1 => a2bLoop rest 2 (v % 16) 0 (acc ++ [leftchar * 4 + v / 16])
            | 2 => a2bLoop rest 3 (v % 4) 0 (acc ++ [leftchar * 16 + v / 4])
            | _ => a2bLoop rest 0 0 0 (acc ++ [leftchar * 64 + v])

/-- `b64url_decode` of `tokens.py`: restore `=` padding to a multiple of
4, translate the URL-safe alphabet, and decode. -/
def b64url_decode (data : String) : Except PyError (List Nat) :=
  let padded := data ++ String.mk (List.replicate ((4 - data.length % 4) % 4) '=')
  a2bLoop (padded.data.map urlsafeTranslate) 0 0 0 []

/-! ## UTF-8 and JSON (`json.loads` on the decoded bytes)

`json.loads` on a `bytes` argument decodes it (modelled as UTF-8; the
BOM/UTF-16/32 sniffing of `json.detect_encoding` is outside the model)
and parses the text.  Both failure modes — `UnicodeDecodeError` and
`json.JSONDecodeError` — are subclasses of `ValueError`. -/

/-- Whether a byte is a UTF-8 continuation byte. -/
def utf8Cont (b : Nat) : Bool := 128 ≤ b && b < 192

/-- Strict UTF-8 decoding as a byte-level state machine: `need` counts
the continuation bytes still expected, `acc` the code point being
accumulated, `lo` its lowest non-overlong value.  Overlong forms,
surrogates, out-of-range code points, stray or missing continuation
bytes are all rejected, as CPython does. -/
def utf8Loop : List Nat → Nat → Nat → Nat → List Char → Option (List Char)
  | [], 0, _, _, out => some out
  | [], _ + 1, _, _, _ => none
  | b :: rest, 0, _, _, out =>
      if b < 128 then utf8Loop rest 0 0 0 (out ++ [Char.ofNat b])
      else if b < 194 then none
      else if b < 224 then utf8Loop rest 1 (b - 192) 128 out
      else if b < 240 then utf8Loop rest 2 (b - 224) 2048 out
      else if b < 245 then utf8Loop rest 3 (b - 240) 65536 out
      else none
  | b :: rest, need + 1, acc, lo, out =>
      if utf8Cont b then
        if need = 0 then
          if lo ≤ acc * 64 + (b - 128) ∧
              (acc * 64 + (b - 128) < 55296 ∨ 57344 ≤ acc * 64 + (b - 128)) ∧
              acc * 64 + (b - 128) ≤ 1114111 then
            utf8Loop rest 0 0 0 (out ++ [Char.ofNat (acc * 64 + (b - 128))])
          else none
        else utf8Loop rest need (acc * 64 + (b - 128)) lo out
      else none

/-- Strict UTF-8 decoding of a byte list. -/
def utf8Decode (bs : List Nat) : Option (List Char) := utf8Loop bs 0 0 0 []

/-- JSON whitespace. -/
def isJsonWs (c : Char) : Bool :=
  c = ' ' || c.toNat = 9 || c.toNat = 10 || c.toNat = 13

/-- Skip JSON whitespace. -/
def skipWs (cs : List Char) : List Char := cs.dropWhile isJsonWs

/-- Value of a hexadecimal digit. -/
def hexVal (c : Char) : Option Nat :=
  let n := c.toNat
  if 48 ≤ n ∧ n ≤ 57 then some (n - 48)
  else if 97 ≤ n ∧ n ≤ 102 then some (n - 97 + 10)
  else if 65 ≤ n ∧ n ≤ 70 then some (n - 65 + 10)
  else none

/-- Body of a JSON string after the opening quote, as a character-level
state machine.  `mode` 0 scans plain characters, 1 follows a backslash,
2-5 read the four hex digits of a unicode escape (surrogate-aware:
modes 6-7 expect the second escape of a pair and 8-11 read its digits,
with the high half in `hi`).  Unescaped control characters and invalid
escapes are rejected (strict mode), as `json.loads` does. -/
def parseStrLoop : List Char → Nat → Nat → Nat → List Char →
    Option (List Char × List Char)
  | [], _, _, _, _ => none
  | c :: rest, mode, acc, hi, out =>
    if mode = 0 then
      if c = quoteChar then some (out, rest)
      else if c = backslashChar then parseStrLoop rest 1 0 0 out
      else if c.toNat < 32 then none
      else parseStrLoop rest 0 0 0 (out ++ [c])
    else if mode = 1 then
      if c = quoteChar then parseStrLoop rest 0 0 0 (out ++ [quoteChar])
      else if c = backslashChar then parseStrLoop rest 0 0 0 (out ++ [backslashChar])
      else if c = '/' then parseStrLoop rest 0 0 0 (out ++ ['/'])
      else if c = 'b' then parseStrLoop rest 0 0 0 (out ++ [Char.ofNat 8])
      else if c = 'f' then parseStrLoop rest 0 0 0 (out ++ [Char.ofNat 12])
      else if c = 'n' then parseStrLoop rest 0 0 0 (out ++ [Char.ofNat 10])
      else if c = 'r' then parseStrLoop rest 0 0 0 (out ++ [Char.ofNat 13])
      else if c = 't' then parseStrLoop rest 0 0 0 (out ++ [Char.ofNat 9])
      else if c = 'u' then parseStrLoop rest 2 0 0 out
      else none
    else if mode ≤ 5 then
      match hexVal c with
      | none => none
      | some h =>
        if mode = 5 then
          if acc * 16 + h < 55296 ∨ 57344 ≤ acc * 16 + h then
            parseStrLoop rest 0 0 0 (out ++ [Char.ofNat (acc * 16 + h)])
          else if acc * 16 + h < 56320 then
            parseStrLoop rest 6 0 (acc * 16 + h) out
          else none
        else parseStrLoop rest (mode + 1) (acc * 16 + h) 0 out
    else if mode = 6 then
      if c = backslashChar then parseStrLoop rest 7 0 hi out else none
    else if mode = 7 then
      if c = 'u' then parseStrLoop rest 8 0 hi out else none
    else
      match hexVal c with
      | none => none
      | some h =>
        if mode = 11 then
          if 56320 ≤ acc * 16 + h ∧ acc * 16 + h < 57344 then
            parseStrLoop rest 0 0 0
              (out ++ [Char.ofNat (65536 + (hi - 55296) * 1024 +
                (acc * 16 + h - 56320))])
          else none
        else parseStrLoop rest (mode + 1) (acc * 16 + h) hi out

/-- Body of a JSON string after the opening quote: the decoded
characters and the input remaining after the closing quote. -/
def parseStringBody (cs : List Char) : Option (List Char × List Char) :=
  parseStrLoop cs 0 0 0 []

/-- Accumulate decimal digits. -/
def parseDigitsAcc (acc : Nat) : List Char → Nat × List Char
  | [] => (acc, [])
  | c :: rest =>
      if c.isDigit then parseDigitsAcc (acc * 10 + (c.toNat - 48)) rest
      else (acc, c :: rest)

/-- A JSON natural-number literal: `0`, or a nonzero digit followed by
digits (JSON forbids leading zeros). -/
def parseJsonNat : List Char → Option (Nat × List Char)
  | [] => none
  | c :: rest =>
      if c = '0' then some (0, rest)
      else if c.isDigit then some (parseDigitsAcc (c.toNat - 48) rest)
      else none

/-- A JSON integer literal (fractional and exponent forms are outside the
model; `exp`/`expires_in` values are integers). -/
def parseNumber (cs : List Char) : Option (Int × List Char) :=
  match cs with
  | [] => none
  | c :: rest =>
      if c = '-' then (parseJsonNat rest).map (fun (n, r) => (-(n : Int), r))
      else (parseJsonNat cs).map (fun (n, r) => ((n : Int), r))

mutual

/-- Recursive-descent JSON value parser; `fuel` only bounds the recursion
and exceeds any need when set to the input length plus one. -/
def parseValue : Nat → List Char → Option (JsonValue × List Char)
  | 0, _ => none
  | fuel + 1, cs =>
    match skipWs cs with
    | [] => none
    | c :: rest =>
      if c = lbraceChar then parseMembers fuel [] true rest
      else if c = '[' then parseElems fuel [] true rest
      else if c = quoteChar then
        (parseStringBody rest).map (fun (cs, r) => (JsonValue.str (String.mk cs), r))
      else if c = 't' then
        match rest with
        | 'r' :: 'u' :: 'e' :: r => some (JsonValue.bool true, r)
        | _ => none
      else if c = 'f' then
        match rest with
        | 'a' :: 'l' :: 's' :: 'e' :: r => some (JsonValue.bool false, r)
        | _ => none
      else if c = 'n' then
        match rest with
        | 'u' :: 'l' :: 'l' :: r => some (JsonValue.null, r)
        | _ => none
      else (parseNumber (c :: rest)).map (fun (n, r) => (JsonValue.num n, r))

/-- Members of a JSON object after the opening brace; `first` is true
before the first member (only there a closing brace may follow at once).
Duplicate keys overwrite in place, as building a Python dict does. -/
def parseMembers : Nat → List (String × JsonValue) → Bool → List Char →
    Option (JsonValue × List Char)
  | 0, _, _, _ => none
  | fuel + 1, acc, first, cs =>
    match skipWs cs with
    | [] => none
    | c :: rest =>
      if c = rbraceChar ∧ first then some (JsonValue.obj acc, rest)
      else if c = quoteChar then
        match parseStringBody rest with
        | none => none
        | some (key, afterKey) =>
          match skipWs afterKey with
          | ':' :: afterColon =>
            match parseValue fuel afterColon with
            | none => none
            | some (v, afterVal) =>
              let acc := dictInsert acc (String.mk key) v
              match skipWs afterVal with
              | ',' :: afterComma => parseMembers fuel acc false afterComma
              | d :: afterBrace =>
                  if d = rbraceChar then some (JsonValue.obj acc, afterBrace) else none
              | [] => none
          | _ => none
      else none

/-- Elements of a JSON array after the opening bracket. -/
def parseElems : Nat → List JsonValue → Bool → List Char →
    Option (JsonValue × List Char)
  | 0, _, _, _ => none
  | fuel + 1, acc, first, cs =>
    match skipWs cs with
    | ']' :: rest =>
        if first then some (JsonValue.arr acc.reverse, rest)
        else none
    | cs' =>
      match parseValue fuel cs' with
      | none => none
      | some (v, afterVal) =>
        match skipWs afterVal with
        | ',' :: afterComma => parseElems fuel (v :: acc) false afterComma
        | ']' :: rest => some (JsonValue.arr (v :: acc).reverse, rest)
        | _ => none

end

/-- `json.loads` on a byte string: UTF-8 decode, parse one JSON value,
require only whitespace after it.  All failures are `ValueError`
subclasses. -/
def json_loads (bs : List Nat) : Except PyError JsonValue :=
  match utf8Decode bs with
  | none => .error (.valueError "UnicodeDecodeError" "invalid start byte")
  | some cs =>
    match parseValue (cs.length + 1) cs with
    | none => .error (.valueError "json.JSONDecodeError" "Expecting value")
    | some (v, rest) =>
      if (skipWs rest).isEmpty then .ok v
      else .error (.valueError "json.JSONDecodeError" "Extra data")

/-- Split a character list at every occurrence of `sep`, keeping empty
pieces (the behaviour of Python `str.split` with an explicit
one-character separator). -/
def splitCharAux (sep : Char) : List Char → List Char → List (List Char)
  | [], cur => [cur.reverse]
  | c :: rest, cur =>
      if c = sep then cur.reverse :: splitCharAux sep rest []
      else splitCharAux sep rest (c :: cur)

/-- Python `s.split(sep)` for a one-character separator. -/
def pySplit (s : String) (sep : Char) : List String :=
  (splitCharAux sep s.data []).map String.mk

/-- `parse_jwt` of `tokens.py`: split on `.`, require exactly 3 parts,
Base64URL-decode each, JSON-parse the first two, return the triple. -/
def parse_jwt (token : String) : Except PyError (JsonValue × JsonValue × List Nat) :=
  match pySplit token '.' with
  | [p0, p1, p2] =>
    match b64url_decode p0 with
    | .error e => .error e
    | .ok headerBytes =>
      match json_loads headerBytes with
      | .error e => .error e
      | .ok header =>
        match b64url_decode p1 with
        | .error e => .error e
        | .ok bodyBytes =>
          match json_loads bodyBytes with
          | .error e => .error e
          | .ok body =>
            match b64url_decode p2 with
            | .error e => .error e
            | .ok signature => .ok (header, body, signature)
  | _ => .error (.valueError "ValueError" "Invalid JWT format")

/-! ## `TokenManager` (`tokens.py`, lines 30-139) -/

/-- Lower bound of `datetime.fromtimestamp` with `timezone.utc`
(midnight of year 1). -/
def datetimeMinTs : Int := -62135596800

/-- Upper bound of `datetime.fromtimestamp` with `timezone.utc`
(last second of year 9999). -/
def datetimeMaxTs : Int := 253402300799

/-- Python `s.strip("/")`: drop leading and trailing slashes. -/
def pyStripSlashes (s : String) : String :=
  String.mk (((s.data.dropWhile (· = '/')).reverse.dropWhile (· = '/')).reverse)

/-- `iss.strip("/").split("/").pop()` of `TokenManager.__init__`. -/
def tenantFromIss (s : String) : String :=
  (pySplit (pyStripSlashes s) '/').getLastD ""

/-- The mutable state of a `TokenManager`.  Fields that Python can later
rebind to arbitrary values (the refresh writes whatever `.get` returned,
including `None`) are kept at `JsonValue` type. -/
structure TokenManager where
  _access_token : JsonValue
  _refresh_token : JsonValue
  _header : JsonValue
  _payload : JsonValue
  _signature : List Nat
  _expires_on : Int
  _tenant_id : JsonValue
  _audience : JsonValue
  _scope : JsonValue

/-- The timestamp value `datetime.fromtimestamp` extracts from a Python
object: numbers are accepted — `bool` is an `int` subclass in Python, so
`True`/`False` count as `1`/`0` (CPython also accepts `float`, which lies
outside this model's integer-granularity JSON numbers) — while `str`,
`None`, lists and dicts raise `TypeError`. -/
def pyTimestamp : JsonValue → Option Int
  | .num n => some n
  | .bool b => some (if b then 1 else 0)
  | _ => none

/-- `TokenManager.__init__` (lines 31-57).  Parse failures are logged and
re-raised; `payload.get` raises `AttributeError` on a non-dict payload;
`datetime.fromtimestamp` (line 43, via `expiration_datetime`) raises
`TypeError` on a non-number `exp` and a range error on an
unrepresentable one; a truthy non-string `iss` raises at `.strip`.  On
success `_expires_on` is `payload.get("exp", 0)`. -/
def TokenManager.init (access_token : String) (refresh_token : JsonValue) :
    Except PyError TokenManager :=
  match parse_jwt access_token with
  | .error e => .error e
  | .ok (header, payload, signature) =>
    match pyGet payload "exp" (.num 0) with
    | .error e => .error e
    | .ok expVal =>
      match pyTimestamp expVal with
      | none => .error (.typeError "an integer is required")
      | some expOn =>
        if expOn < datetimeMinTs ∨ datetimeMaxTs < expOn then
          .error (.valueError "ValueError" "year out of range")
        else
          match pyGet payload "iss" (.str "") with
          | .error e => .error e
          | .ok issVal =>
            match pyGet payload "aud" (.str ""), pyGet payload "scp" (.str "") with
            | .ok audVal, .ok scpVal =>
              if jsonTruthy issVal then
                match issVal with
                | .str iss =>
                    .ok { _access_token := .str access_token,
                          _refresh_token := refresh_token,
                          _header := header, _payload := payload,
                          _signature := signature, _expires_on := expOn,
                          _tenant_id := .str (tenantFromIss iss),
                          _audience := audVal, _scope := scpVal }
                | _ => .error (.attributeError "object has no attribute strip")
              else
                .ok { _access_token := .str access_token,
                      _refresh_token := refresh_token,
                      _header := header, _payload := payload,
                      _signature := signature, _expires_on := expOn,
                      _tenant_id := issVal,
                      _audience := audVal, _scope := scpVal }
            | .error e, _ => .error e
            | _, .error e => .error e

/-- `expires_in` (lines 89-90): `max(0, expires_on - now)`, with the
current clock passed explicitly. -/
def TokenManager.expires_in (tm : TokenManager) (now : Int) : Int :=
  max 0 (tm._expires_on - now)

/-- `is_expired` (lines 85-87). -/
def TokenManager.is_expired (tm : TokenManager) (now : Int) : Bool :=
  tm._expires_on < now

/-- How a call to `refresh_access_token` came back (all three are normal
returns in the source: `return None, None`, bare `return`, and falling
off the end after updating the tokens). -/
inductive RefreshOutcome where
  /-- `return None, None` at lines 93-95: missing refresh token. -/
  | missingRefreshToken
  /-- bare `return` at lines 109-111: token endpoint answered non-200. -/
  | httpFailure
  /-- fell through line 118 after storing the new tokens. -/
  | refreshed
deriving Repr, DecidableEq

/-- `refresh_access_token` (lines 92-118).  The token endpoint is
modelled by the `status`/`body` of its reply (the JSON of
`response.json()`).  The returned `Bool` records whether the HTTP POST
was issued.  On a 200 reply the new `access_token`/`refresh_token`
entries (or `None` when absent) are stored; `_expires_on`, `_header`,
`_payload` are not touched by the source.  A non-dict reply raises
`AttributeError` at `.get`. -/
def TokenManager.refresh_access_token (tm : TokenManager)
    (refresh_token : JsonValue) (status : Nat) (body : JsonValue) :
    Except PyError (RefreshOutcome × TokenManager × Bool) :=
  if jsonTruthy refresh_token = false then .ok (.missingRefreshToken, tm, false)
  else if status ≠ 200 then .ok (.httpFailure, tm, true)
  else
    match pyGet body "access_token" .null with
    | .error e => .error e
    | .ok newAccess =>
      match pyGet body "refresh_token" .null with
      | .error e => .error e
      | .ok newRefresh =>
          .ok (.refreshed,
               { tm with _access_token := newAccess, _refresh_token := newRefresh },
               true)

/-- What happens on the network during one iteration of the background
refresher: either the POST completes and its body parses as JSON, or an
exception is raised (connection failure, invalid JSON body, …). -/
inductive NetworkEvent where
  | response (status : Nat) (body : JsonValue)
  | raised (e : PyError)

/-- One iteration of the `refresher` loop body (lines 122-135) after the
sleep: run `refresh_access_token` on the stored refresh token inside
`try`; any raised exception is logged and `break`s the loop, a normal
return continues it.  Returns the new state and whether the loop goes
on; no exception ever propagates out of the thread. -/
def TokenManager.refresherStep (tm : TokenManager) (ev : NetworkEvent) :
    TokenManager × Bool :=
  match ev with
  | .raised _ => (tm, false)
  | .response status body =>
    match tm.refresh_access_token tm._refresh_token status body with
    | .ok (_, tm2, _) => (tm2, true)
    | .error _ => (tm, false)

/-- A started refresher thread (`threading.Thread(..., daemon=True,
name="Token Refresher")`). -/
structure RefresherThread where
  daemon : Bool
  threadName : String
deriving Repr, DecidableEq

/-- `start_auto_refresh` (lines 120-139): unconditionally create and
start one more refresher thread — the source consults no flag and keeps
no handle, so every call adds a thread to the set of running refreshers
(modelled as the list of threads started so far). -/
def TokenManager.start_auto_refresh (_tm : TokenManager)
    (threads : List RefresherThread) : List RefresherThread :=
  threads ++ [{ daemon := true, threadName := "Token Refresher" }]

/-! ## `PlaywrightAuth.get_tokens` (`auth.py`) and `console.run` -/

/-- Whether `needle` occurs as a substring (Python `in` on `str`). -/
def strContainsAux (needle : List Char) : List Char → Bool
  | [] => needle.isEmpty
  | c :: rest => needle.isPrefixOf (c :: rest) || strContainsAux needle rest

/-- Python `needle in hay` for strings. -/
def strContains (hay needle : String) : Bool :=
  strContainsAux needle.data hay.data

/-- Scope-string construction of `get_tokens` (auth.py lines 61-64):
space-join the scopes; if the literal `"openid"` is not a substring of
the joined string, prepend `"openid "`. -/
def scope_string (scopes : List String) : String :=
  let s := String.intercalate " " scopes
  if strContains s "openid" then s else "openid " ++ s

/-- Tail of `get_tokens` (auth.py lines 153-164): on a non-200 exchange
reply return `None`; otherwise build the `response_dict` with the three
keys `refresh_token`, `access_token`, `expires_in` taken from the reply
JSON via `.get` (which yields `None` for absent keys, and raises
`AttributeError` on a non-dict reply). -/
def get_tokens_response (status : Nat) (body : JsonValue) :
    Except PyError (Option (List (String × JsonValue))) :=
  if status ≠ 200 then .ok none
  else
    match pyGet body "refresh_token" .null with
    | .error e => .error e
    | .ok r =>
      match pyGet body "access_token" .null with
      | .error e => .error e
      | .ok a =>
        match pyGet body "expires_in" .null with
        | .error e => .error e
        | .ok ei =>
            .ok (some [("refresh_token", r), ("access_token", a), ("expires_in", ei)])

/-- `console.run` from the token exchange to the `--save roadtools`
persistence (console.py lines 94-126): when `get_tokens` returns `None`
nothing is persisted (exit code 1); otherwise a `TokenManager` is built
from `tokens["access_token"]` and `tokens.get("refresh_token") or ""`
(raising — and persisting nothing — when the access token is not a
parseable JWT string), and the snapshot written to `.roadtools_auth` is
exactly `{accessToken, refreshToken, expiresIn}` with the values copied
verbatim from the exchange `response_dict`. -/
def console_run_save (status : Nat) (body : JsonValue) :
    Except PyError (Option (List (String × JsonValue))) :=
  match get_tokens_response status body with
  | .error e => .error e
  | .ok none => .ok none
  | .ok (some tokens) =>
    let accessVal := (assocGet tokens "access_token").getD .null
    match accessVal with
    | .str s =>
      let r := (assocGet tokens "refresh_token").getD .null
      match TokenManager.init s (if jsonTruthy r then r else .str "") with
      | .error e => .error e
      | .ok _tm =>
          .ok (some [("accessToken", accessVal),
                     ("refreshToken", (assocGet tokens "refresh_token").getD .null),
                     ("expiresIn", (assocGet tokens "expires_in").getD .null)])
    | _ => .error (.attributeError "object has no attribute split")

/-! ## Specification-side encoders (for round-trip statements and
concrete inputs; these follow the spec text: unpadded Base64URL over
UTF-8-encoded JSON text, segments joined with dots) -/

/-- Character of a 6-bit value in the Base64URL alphabet. -/
def b64UrlChar (v : Nat) : Char :=
  if v < 26 then Char.ofNat (65 + v)
  else if v < 52 then Char.ofNat (97 + (v - 26))
  else if v < 62 then Char.ofNat (48 + (v - 52))
  else if v = 62 then '-' else '_'

/-- Unpadded Base64URL encoding of a byte list. -/
def b64UrlEncodeList : List Nat → List Char
  | [] => []
  | [a] => [b64UrlChar (a / 4), b64UrlChar (a % 4 * 16)]
  | [a, b] =>
      [b64UrlChar (a / 4), b64UrlChar (a % 4 * 16 + b / 16), b64UrlChar (b % 16 * 4)]
  | a :: b :: c :: rest =>
      b64UrlChar (a / 4) :: b64UrlChar (a % 4 * 16 + b / 16) ::
      b64UrlChar (b % 16 * 4 + c / 64) :: b64UrlChar (c % 64) :: b64UrlEncodeList rest

/-- Unpadded Base64URL encoding, as a string. -/
def b64UrlEncode (bs : List Nat) : String := String.mk (b64UrlEncodeList bs)

/-- UTF-8 encoding of one character. -/
def utf8EncodeChar (c : Char) : List Nat :=
  let n := c.toNat
  if n < 128 then [n]
  else if n < 2048 then [192 + n / 64, 128 + n % 64]
  else if n < 65536 then [224 + n / 4096, 128 + n / 64 % 64, 128 + n % 64]
  else [240 + n / 262144, 128 + n / 4096 % 64, 128 + n / 64 % 64, 128 + n % 64]

/-- UTF-8 encoding of a string. -/
def utf8Encode (s : String) : List Nat := (s.data.map utf8EncodeChar).flatten

/-- Decimal digits of a natural number (fuel-indexed so that it reduces
definitionally; `natDigits` supplies enough fuel). -/
def natDigitsAux : Nat → Nat → List Char
  | 0, _ => []
  | fuel + 1, n =>
      if n < 10 then [Char.ofNat (48 + n)]
      else natDigitsAux fuel (n / 10) ++ [Char.ofNat (48 + n % 10)]

/-- Decimal digits of a natural number. -/
def natDigits (n : Nat) : List Char := natDigitsAux (n + 1) n

/-- A compact JWT built per the spec: Base64URL segments of the
UTF-8-encoded header and payload texts and of the signature bytes,
joined with dots. -/
def mkJwt (headerText payloadText : String) (sig : List Nat) : String :=
  b64UrlEncode (utf8Encode headerText) ++ "." ++
  b64UrlEncode (utf8Encode payloadText) ++ "." ++ b64UrlEncode sig

/-- The JSON text of the payload `{"exp": n}`. -/
def expPayloadText (n : Nat) : String :=
  String.mk (lbraceChar :: quoteChar :: 'e' :: 'x' :: 'p' :: quoteChar :: ':' ::
    ' ' :: (natDigits n ++ [rbraceChar]))

/-- The example token of the spec: header `{}`, payload `{"exp": n}`,
signature bytes `sig`. -/
def mkExpToken (n : Nat) (sig : List Nat) : String :=
  mkJwt (String.mk [lbraceChar, rbraceChar]) (expPayloadText n) sig

/-- Membership in the Base64URL alphabet. -/
def isBase64UrlChar (c : Char) : Bool := (b64Val (urlsafeTranslate c)).isSome

/-- A string is valid (unpadded) Base64URL data when all of its
characters belong to the Base64URL alphabet. -/
def isValidBase64Url (s : String) : Bool := s.data.all isBase64UrlChar

/-! ## Concrete fixtures -/

/-- Fallback manager used only in `match` default branches of fixtures. -/
def emptyTM : TokenManager := ⟨.null, .null, .null, .null, [], 0, .null, .null, .null⟩

/-- The example token: header `{}`, payload with `exp` 1000. -/
def demoToken : String := mkExpToken 1000 [1, 2, 3]

/-- A manager constructed from `demoToken` with refresh token `"r1"`. -/
def tm0 : TokenManager :=
  match TokenManager.init demoToken (.str "r1") with
  | .ok tm => tm
  | .error _ => emptyTM

/-- A 200 reply of the token endpoint carrying a fresh pair; the fresh
access token's own `exp` claim is 2000. -/
def refreshReplyBody : JsonValue :=
  .obj [("access_token", .str (mkExpToken 2000 [4, 5])), ("refresh_token", .str "r2")]

/-- The state of `tm0` after a successful refresh against
`refreshReplyBody`. -/
def tm1 : TokenManager :=
  match tm0.refresh_access_token (.str "r1") 200 refreshReplyBody with
  | .ok (_, tm2, _) => tm2
  | .error _ => emptyTM

/-- A 200 exchange reply that contains only an access token. -/
def exchangeBodyNoRefresh : JsonValue := .obj [("access_token", .str demoToken)]

/-- A 200 exchange reply with all three token fields. -/
def exchangeBodyFull : JsonValue :=
  .obj [("access_token", .str demoToken), ("refresh_token", .str "r9"),
        ("expires_in", .num 3600)]

/-- The snapshot that `console_run_save` persists for
`exchangeBodyFull`. -/
def snapFull : List (String × JsonValue) :=
  [("accessToken", .str demoToken), ("refreshToken", .str "r9"),
   ("expiresIn", .num 3600)]

/-! ## Theorems -/

/-- C3 (counterexample): starting the auto-refresher twice on the same
manager leaves two running refresher threads, not one — `start_auto_refresh`
is not idempotent. -/
theorem c3_cex_start_twice_spawns_two_threads :
    (tm0.start_auto_refresh (tm0.start_auto_refresh [])).length = 2 ∧
    (tm0.start_auto_refresh (tm0.start_auto_refresh [])).length ≠ 1 := by
  constructor
  · rfl
  · intro h
    simp [TokenManager.start_auto_refresh] at h

/-- C3 (amended): `start_auto_refresh` is not idempotent — every call
unconditionally creates and starts one additional daemon refresher
thread, so n calls leave n running refresher threads per instance. -/
theorem c3_each_start_spawns_one_more_thread :
    ∀ (tm : TokenManager) (threads : List RefresherThread),
      tm.start_auto_refresh threads =
        threads ++ [{ daemon := true, threadName := "Token Refresher" }] ∧
      (tm.start_auto_refresh threads).length = threads.length + 1 := by
  intro tm threads
  refine ⟨rfl, ?_⟩
  simp [TokenManager.start_auto_refresh]

/-- C4: a falsy (empty or missing) refresh token makes
`refresh_access_token` return the `(None, None)` failure signal — the
code's `MissingRefreshTokenError` analogue — with no HTTP request issued
and the token state unchanged. -/
theorem c4_empty_refresh_token_fails_without_network :
    ∀ (tm : TokenManager) (rt : JsonValue) (status : Nat) (body : JsonValue),
      jsonTruthy rt = false →
      tm.refresh_access_token rt status body = .ok (.missingRefreshToken, tm, false) := by
  intro tm rt status body h
  simp [TokenManager.refresh_access_token, h]

/-- C4 (witness): the empty-string refresh token on the concrete manager
`tm0` against a live 200 reply: no network call, state unchanged. -/
theorem c4_witness :
    tm0.refresh_access_token (.str "") 200 refreshReplyBody =
      .ok (.missingRefreshToken, tm0, false) :=
  c4_empty_refresh_token_fails_without_network tm0 (.str "") 200 refreshReplyBody rfl

/-- C5 (counterexample): when the refresh attempt raises (network error,
unparseable body), the background refresher logs and `break`s — the loop
exits instead of retrying, refuting "never exits the loop on failure". -/
theorem c5_cex_refresher_exits_on_exception :
    tm0.refresherStep (.raised (.valueError "ValueError" "connection error")) =
      (tm0, false) := rfl

/-- C5 (amended): a non-200 reply is logged inside `refresh_access_token`
and the loop continues; a raised exception is caught, logged, and exits
the loop (the daemon thread ends; nothing propagates to the foreground).
-/
theorem c5_refresher_failure_policy :
    ∀ (tm : TokenManager) (status : Nat) (body : JsonValue) (e : PyError),
      (status ≠ 200 → tm.refresherStep (.response status body) = (tm, true)) ∧
      tm.refresherStep (.raised e) = (tm, false) ∧
      (∀ e2, tm.refresh_access_token tm._refresh_token status body = .error e2 →
        tm.refresherStep (.response status body) = (tm, false)) := by
  intro tm status body e
  refine ⟨fun hs => ?_, rfl, fun e2 he => ?_⟩
  · by_cases ht : jsonTruthy tm._refresh_token = false
    · simp [TokenManager.refresherStep, TokenManager.refresh_access_token, ht]
    · simp [TokenManager.refresherStep, TokenManager.refresh_access_token, ht, hs]
  · simp [TokenManager.refresherStep, he]

/-- C5 (witness): a 500 reply on the concrete manager `tm0` leaves the
loop running with the state untouched. -/
theorem c5_witness : tm0.refresherStep (.response 500 .null) = (tm0, true) :=
  (c5_refresher_failure_policy tm0 500 .null (.typeError "x")).1 (by decide)

/-- C6: the authorization-request scope string is the space-join of the
scope list, with `"openid"` prepended exactly when `"openid"` is not a
substring of the join; in particular `["a","b"]` gives `"openid a b"`
and `["openid","a"]` gives `"openid a"`. -/
theorem c6_scope_string_construction :
    scope_string ["a", "b"] = "openid a b" ∧
    scope_string ["openid", "a"] = "openid a" ∧
    ∀ scopes : List String,
      (strContains (String.intercalate " " scopes) "openid" = true →
        scope_string scopes = String.intercalate " " scopes) ∧
      (strContains (String.intercalate " " scopes) "openid" = false →
        scope_string scopes = "openid " ++ String.intercalate " " scopes) := by
  refine ⟨rfl, rfl, fun scopes => ⟨fun h => ?_, fun h => ?_⟩⟩ <;>
    simp [scope_string, h]

/-- C6 (witness): a scope list without `"openid"` gets it prepended. -/
theorem c6_witness : scope_string ["x"] = "openid x" :=
  (c6_scope_string_construction.2.2 ["x"]).2 rfl

/-- C7: `expires_in` returns `max(0, expires_on - now)`: it is
non-negative (clamps at 0 even when `now` is past the expiry or the
clock moved), and non-increasing as `now` advances. -/
theorem c7_expires_in_clamped_nonneg_antitone :
    ∀ (tm : TokenManager) (now now2 : Int),
      tm.expires_in now = max 0 (tm._expires_on - now) ∧
      0 ≤ tm.expires_in now ∧
      (now ≤ now2 → tm.expires_in now2 ≤ tm.expires_in now) := by
  intro tm now now2
  refine ⟨rfl, le_max_left _ _, fun h => ?_⟩
  exact max_le_max le_rfl (by omega)

/-- C7 (witness): on the concrete manager, later clock readings give
smaller-or-equal remaining lifetimes. -/
theorem c7_witness : tm0.expires_in 400 ≤ tm0.expires_in 300 :=
  (c7_expires_in_clamped_nonneg_antitone tm0 300 400).2.2 (by decide)

/-- C1: a successful refresh (200 reply) stores the reply's
`access_token` and `refresh_token` values, but leaves `_expires_on`
(and the decoded `_header`/`_payload`) exactly as computed at
construction — the source never updates the expiry, contradicting the
spec's "replace access token, refresh token, and expiry". -/
theorem c1_refresh_updates_tokens_but_not_expiry :
    ∀ (tm : TokenManager) (rt : JsonValue) (status : Nat) (body : JsonValue)
      (tm2 : TokenManager) (net : Bool),
      tm.refresh_access_token rt status body = .ok (.refreshed, tm2, net) →
      tm2._expires_on = tm._expires_on ∧
      tm2._payload = tm._payload ∧ tm2._header = tm._header ∧
      pyGet body "access_token" .null = .ok tm2._access_token ∧
      pyGet body "refresh_token" .null = .ok tm2._refresh_token := by
  intro tm rt status body tm2 net h
  by_cases h1 : jsonTruthy rt = false
  · simp [TokenManager.refresh_access_token, h1] at h
  · by_cases h2 : status = 200
    · subst h2
      cases ha : pyGet body "access_token" .null with
      | error e => simp [TokenManager.refresh_access_token, h1, ha] at h
      | ok newAccess =>
        cases hr : pyGet body "refresh_token" .null with
        | error e => simp [TokenManager.refresh_access_token, h1, ha, hr] at h
        | ok newRefresh =>
          simp [TokenManager.refresh_access_token, h1, ha, hr] at h
          obtain ⟨htm, hnet⟩ := h
          subst htm
          exact ⟨rfl, rfl, rfl, rfl, rfl⟩
    · simp [TokenManager.refresh_access_token, h1, h2] at h

/-- C1 (witness, the failing input): `tm0` was built from a token with
`exp` 1000; a successful 200 refresh whose fresh access token carries
`exp` 2000 stores the new token pair, yet the stored expiry stays 1000 —
the original value from construction, not the new token's. -/
theorem c1_witness :
    tm1._expires_on = tm0._expires_on ∧ tm1._expires_on = 1000 ∧
    tm1._access_token = .str (mkExpToken 2000 [4, 5]) ∧
    tm1._refresh_token = .str "r2" :=
  ⟨(c1_refresh_updates_tokens_but_not_expiry tm0 (.str "r1") 200
      refreshReplyBody tm1 true rfl).1, rfl, rfl, rfl⟩

/-- C10 (counterexample): the token `"e30.NQ.e30"` is a well-formed
three-part JWT whose header and payload are Base64URL/JSON-decodable
(header `{}`, payload the JSON number `5`), yet construction raises
`AttributeError` (at `payload.get`) instead of succeeding. -/
theorem c10_cex_parseable_token_constructor_raises :
    parse_jwt "e30.NQ.e30" = .ok (.obj [], .num 5, [123, 125]) ∧
    TokenManager.init "e30.NQ.e30" (.str "") =
      .error (.attributeError "object has no attribute get") :=
  ⟨rfl, rfl⟩

/-- A successful `dict.get` means the receiver was a dict. -/
theorem pyGet_ok : ∀ (v : JsonValue) (k : String) (dflt x : JsonValue),
    pyGet v k dflt = .ok x →
    ∃ ms, v = .obj ms ∧ x = (assocGet ms k).getD dflt := by
  intro v k dflt x h
  cases v with
  | obj ms =>
      refine ⟨ms, rfl, ?_⟩
      injection h with h2
      exact h2.symm
  | null => simp [pyGet] at h
  | bool b => simp [pyGet] at h
  | num n => simp [pyGet] at h
  | str s => simp [pyGet] at h
  | arr es => simp [pyGet] at h

/-- C10 (amended): construction propagates any `parse_jwt` failure (no
instance produced).  Parseability is not sufficient: whenever
construction succeeds, the payload is necessarily a JSON *object* and
`_expires_on` is the number `datetime.fromtimestamp` extracts from its
`exp` entry (default 0; booleans count as the integers 0/1), within the
representable range.  Conversely, an object payload whose `exp`-or-0 is
such a number in range and whose truthy `iss` entry, if any, is a
string does yield an instance, with `_expires_on` equal to that
value. -/
theorem c10_init_parse_and_object_payload :
    ∀ (tok : String) (rt : JsonValue),
      (∀ e, parse_jwt tok = .error e → TokenManager.init tok rt = .error e) ∧
      (∀ tm, TokenManager.init tok rt = .ok tm →
        ∃ hdr ms sig, parse_jwt tok = .ok (hdr, .obj ms, sig) ∧
          tm._payload = .obj ms ∧ tm._access_token = .str tok ∧
          tm._refresh_token = rt ∧
          pyTimestamp ((assocGet ms "exp").getD (.num 0)) = some tm._expires_on ∧
          datetimeMinTs ≤ tm._expires_on ∧ tm._expires_on ≤ datetimeMaxTs) ∧
      (∀ hdr ms sig, parse_jwt tok = .ok (hdr, .obj ms, sig) →
        ∀ n : Int, pyTimestamp ((assocGet ms "exp").getD (.num 0)) = some n →
        ¬(n < datetimeMinTs ∨ datetimeMaxTs < n) →
        (jsonTruthy ((assocGet ms "iss").getD (.str "")) = false ∨
          ((assocGet ms "iss").getD (.str "")).isString = true) →
        ∃ tm, TokenManager.init tok rt = .ok tm ∧
          tm._expires_on = n ∧ tm._payload = .obj ms ∧
          tm._access_token = .str tok ∧ tm._refresh_token = rt) := by
  intro tok rt
  refine ⟨?_, ?_, ?_⟩
  · intro e h
    simp [TokenManager.init, h]
  · intro tm h
    unfold TokenManager.init at h
    split at h
    · simp at h
    · rename_i hdr payload sig heq
      split at h
      · simp at h
      · rename_i expVal heq2
        split at h
        · simp at h
        · rename_i expOn heq3
          split at h
          · simp at h
          · rename_i hrange
            split at h
            · simp at h
            · rename_i issVal heq4
              split at h
              · rename_i audVal scpVal heq5 heq6
                obtain ⟨ms, hpl, hev⟩ := pyGet_ok payload "exp" (.num 0) expVal heq2
                subst hpl
                subst hev
                push_neg at hrange
                split at h
                · split at h
                  · injection h with h2
                    subst h2
                    exact ⟨hdr, ms, sig, heq, rfl, rfl, rfl, heq3,
                      hrange.1, hrange.2⟩
                  · simp at h
                · injection h with h2
                  subst h2
                  exact ⟨hdr, ms, sig, heq, rfl, rfl, rfl, heq3,
                    hrange.1, hrange.2⟩
              · simp at h
              · simp at h
  · intro hdr ms sig hp n hn hrange hiss
    unfold TokenManager.init
    rw [hp]
    simp only [pyGet]
    rw [hn]
    dsimp only
    rw [if_neg hrange]
    rcases hiss with hfalsy | hstr
    · rw [hfalsy]
      simp only [Bool.false_eq_true, if_false]
      exact ⟨_, rfl, rfl, rfl, rfl, rfl⟩
    · cases hv : (assocGet ms "iss").getD (.str "") with
      | str s =>
          by_cases ht : jsonTruthy (JsonValue.str s) = true
          · rw [if_pos ht]
            exact ⟨_, rfl, rfl, rfl, rfl, rfl⟩
          · rw [if_neg ht]
            exact ⟨_, rfl, rfl, rfl, rfl, rfl⟩
      | null => rw [hv] at hstr; simp [JsonValue.isString] at hstr
      | bool b => rw [hv] at hstr; simp [JsonValue.isString] at hstr
      | num m => rw [hv] at hstr; simp [JsonValue.isString] at hstr
      | arr es => rw [hv] at hstr; simp [JsonValue.isString] at hstr
      | obj mss => rw [hv] at hstr; simp [JsonValue.isString] at hstr

/-- C10 (witness): on the example token (payload `{"exp": 1000}`, an
object whose in-range `exp` is accepted by `fromtimestamp` and with no
`iss`), construction succeeds with `_expires_on = 1000`. -/
theorem c10_witness :
    ∃ tm, TokenManager.init demoToken (.str "r1") = .ok tm ∧
      tm._expires_on = 1000 ∧ tm._payload = .obj [("exp", .num 1000)] ∧
      tm._access_token = .str demoToken ∧ tm._refresh_token = .str "r1" :=
  (c10_init_parse_and_object_payload demoToken (.str "r1")).2.2
    (.obj []) [("exp", .num 1000)] [1, 2, 3] rfl 1000 rfl (by decide)
    (Or.inl rfl)

/-- Every error the base64 decode loop produces is a `ValueError`
subclass (`binascii.Error`). -/
theorem a2bLoop_error_isValueError :
    ∀ (cs : List Char) (q l p : Nat) (acc : List Nat) (e : PyError),
      a2bLoop cs q l p acc = .error e → e.isValueError = true := by
  intro cs
  induction cs with
  | nil =>
      intro q l p acc e h
      unfold a2bLoop at h
      split at h
      · simp at h
      · split at h
        · injection h with h2
          subst h2
          rfl
        · injection h with h2
          subst h2
          rfl
  | cons c rest ih =>
      intro q l p acc e h
      unfold a2bLoop at h
      split at h
      · split at h
        · split at h
          · simp at h
          · exact ih _ _ _ _ _ h
        · exact ih _ _ _ _ _ h
      · split at h
        · exact ih _ _ _ _ _ h
        · split at h <;> exact ih _ _ _ _ _ h

/-- Every error of `b64url_decode` is a `ValueError` subclass. -/
theorem b64url_decode_error_isValueError :
    ∀ (s : String) (e : PyError),
      b64url_decode s = .error e → e.isValueError = true := by
  intro s e h
  unfold b64url_decode at h
  exact a2bLoop_error_isValueError _ _ _ _ _ _ h

/-- Every error of `json_loads` is a `ValueError` subclass
(`UnicodeDecodeError` or `json.JSONDecodeError`). -/
theorem json_loads_error_isValueError :
    ∀ (bs : List Nat) (e : PyError),
      json_loads bs = .error e → e.isValueError = true := by
  intro bs e h
  unfold json_loads at h
  split at h
  · injection h with h2
    subst h2
    rfl
  · split at h
    · injection h with h2
      subst h2
      rfl
    · split at h
      · simp at h
      · injection h with h2
        subst h2
        rfl

/-- C2 (counterexample): the payload part `"e30!!!!"` is not valid
Base64URL (it contains `!`), yet `parse_jwt` succeeds on the token —
the decoder skips characters outside the alphabet instead of failing,
so "malformed input always fails" is refuted. -/
theorem c2_cex_invalid_base64url_part_parses :
    isValidBase64Url "e30!!!!" = false ∧
    parse_jwt "e30.e30!!!!.e30" = .ok (.obj [], .obj [], [123, 125]) :=
  ⟨rfl, rfl⟩

/-- C2 (amended): whenever `parse_jwt` fails it fails with a `ValueError`
subclass (the code's `MalformedTokenError` analogue) and never an
unrelated error kind; a split count other than 3 always fails; and a
success carries fully decoded data for all three parts (never partial
data).  However a part that is not valid Base64URL need not fail: the
decoder skips characters outside the alphabet. -/
theorem c2_uniform_valueerror_no_partial_data :
    ∀ s : String,
      (∀ e, parse_jwt s = .error e → e.isValueError = true) ∧
      ((pySplit s '.').length ≠ 3 →
        parse_jwt s = .error (.valueError "ValueError" "Invalid JWT format")) ∧
      (∀ p0 p1 p2, pySplit s '.' = [p0, p1, p2] →
        ∀ h b g, parse_jwt s = .ok (h, b, g) →
          ∃ hb bb, b64url_decode p0 = .ok hb ∧ json_loads hb = .ok h ∧
            b64url_decode p1 = .ok bb ∧ json_loads bb = .ok b ∧
            b64url_decode p2 = .ok g) := by
  intro s
  refine ⟨?_, ?_, ?_⟩
  · intro e h
    unfold parse_jwt at h
    split at h
    · split at h
      · injection h with h2
        subst h2
        exact b64url_decode_error_isValueError _ _ (by assumption)
      · split at h
        · injection h with h2
          subst h2
          exact json_loads_error_isValueError _ _ (by assumption)
        · split at h
          · injection h with h2
            subst h2
            exact b64url_decode_error_isValueError _ _ (by assumption)
          · split at h
            · injection h with h2
              subst h2
              exact json_loads_error_isValueError _ _ (by assumption)
            · split at h
              · injection h with h2
                subst h2
                exact b64url_decode_error_isValueError _ _ (by assumption)
              · simp at h
    · injection h with h2
      subst h2
      rfl
  · intro hlen
    unfold parse_jwt
    split
    · next p0 p1 p2 heq => rw [heq] at hlen; simp at hlen
    · rfl
  · intro p0 p1 p2 hsplit h b g hok
    unfold parse_jwt at hok
    rw [hsplit] at hok
    dsimp only at hok
    split at hok
    · simp at hok
    · split at hok
      · simp at hok
      · split at hok
        · simp at hok
        · split at hok
          · simp at hok
          · split at hok
            · simp at hok
            · injection hok with h2
              injection h2 with hh h3
              injection h3 with hbdy hg
              subst hh
              subst hbdy
              subst hg
              exact ⟨_, _, by assumption, by assumption, by assumption,
                by assumption, by assumption⟩

/-- C2 (witness): a one-part input fails with the uniform
`ValueError`-class format error. -/
theorem c2_witness :
    parse_jwt "x" = .error (.valueError "ValueError" "Invalid JWT format") :=
  (c2_uniform_valueerror_no_partial_data "x").2.1 (by decide)

/-- C9 (counterexample): a successful acquisition whose 200 exchange
reply contains only `access_token` persists `refreshToken` and
`expiresIn` as JSON `null` — not a string and not an integer — refuting
the claimed value types. -/
theorem c9_cex_snapshot_with_null_values :
    console_run_save 200 exchangeBodyNoRefresh =
      .ok (some [("accessToken", .str demoToken),
                 ("refreshToken", .null), ("expiresIn", .null)]) ∧
    JsonValue.isString .null = false :=
  ⟨rfl, rfl⟩

/-- C9 (amended): every persisted snapshot has exactly the keys
`accessToken`, `refreshToken`, `expiresIn` in that order; `accessToken`
is the (string) access token; but `refreshToken` and `expiresIn` are
copied verbatim from the exchange reply captured at exchange time — they
are whatever `.get` produced, `null` when the reply omits them, with no
type guarantee and no recomputation at write time. -/
theorem c9_snapshot_exact_keys_verbatim_values :
    ∀ (status : Nat) (body : JsonValue) (snap : List (String × JsonValue)),
      console_run_save status body = .ok (some snap) →
      status = 200 ∧
      ∃ a r ei, pyGet body "access_token" .null = .ok a ∧
        pyGet body "refresh_token" .null = .ok r ∧
        pyGet body "expires_in" .null = .ok ei ∧
        snap = [("accessToken", a), ("refreshToken", r), ("expiresIn", ei)] ∧
        a.isString = true := by
  intro status body snap h
  unfold console_run_save at h
  split at h
  · simp at h
  · simp at h
  · rename_i tokens heq
    unfold get_tokens_response at heq
    split at heq
    · simp at heq
    · rename_i hst
      split at heq
      · simp at heq
      · rename_i r hr
        split at heq
        · simp at heq
        · rename_i a ha
          split at heq
          · simp at heq
          · rename_i ei hei
            injection heq with heq2
            injection heq2 with heq3
            subst heq3
            have hav : (assocGet [("refresh_token", r), ("access_token", a),
                ("expires_in", ei)] "access_token").getD JsonValue.null = a := by
              simp [assocGet]
            have hrv : (assocGet [("refresh_token", r), ("access_token", a),
                ("expires_in", ei)] "refresh_token").getD JsonValue.null = r := by
              simp [assocGet]
            have hev : (assocGet [("refresh_token", r), ("access_token", a),
                ("expires_in", ei)] "expires_in").getD JsonValue.null = ei := by
              simp [assocGet]
            rw [hav, hrv, hev] at h
            cases a with
            | str s2 =>
                dsimp only at h
                split at h
                · simp at h
                · injection h with h2
                  injection h2 with h3
                  subst h3
                  exact ⟨by omega, .str s2, r, ei, ha, hr, hei, rfl, rfl⟩
            | null => simp at h
            | bool b2 => simp at h
            | num m => simp at h
            | arr es => simp at h
            | obj ms => simp at h

/-- C9 (witness): a complete 200 reply persists the snapshot with the
three keys and the verbatim values. -/
theorem c9_witness :
    (200 : Nat) = 200 ∧
    ∃ a r ei, pyGet exchangeBodyFull "access_token" .null = .ok a ∧
      pyGet exchangeBodyFull "refresh_token" .null = .ok r ∧
      pyGet exchangeBodyFull "expires_in" .null = .ok ei ∧
      snapFull = [("accessToken", a), ("refreshToken", r), ("expiresIn", ei)] ∧
      a.isString = true :=
  c9_snapshot_exact_keys_verbatim_values 200 exchangeBodyFull snapFull rfl

/-! ## Round-trip lemmas for the Base64URL layer (claim C8) -/

/-- Each 6-bit value encodes to a character that the (translated)
decoder maps back to the same value, and that is neither `=` nor `.`. -/
theorem b64UrlChar_decode_table :
    ∀ v : Fin 64, b64Val (urlsafeTranslate (b64UrlChar v.val)) = some v.val ∧
      urlsafeTranslate (b64UrlChar v.val) ≠ '=' ∧ b64UrlChar v.val ≠ '.' := by
  decide

/-- Value form of `b64UrlChar_decode_table`. -/
theorem b64UrlChar_val (v : Nat) (hv : v < 64) :
    b64Val (urlsafeTranslate (b64UrlChar v)) = some v :=
  (b64UrlChar_decode_table ⟨v, hv⟩).1

/-- The encoded characters are never the padding character. -/
theorem b64UrlChar_ne_pad (v : Nat) (hv : v < 64) :
    urlsafeTranslate (b64UrlChar v) ≠ '=' :=
  (b64UrlChar_decode_table ⟨v, hv⟩).2.1

/-- The encoded characters are never the dot separator. -/
theorem b64UrlChar_ne_dot (v : Nat) (hv : v < 64) : b64UrlChar v ≠ '.' :=
  (b64UrlChar_decode_table ⟨v, hv⟩).2.2

/-- One decode step at quadruple position 0. -/
theorem a2bLoop_step0 (c : Char) (v : Nat) (rest : List Char) (acc : List Nat)
    (hc : c ≠ '=') (hv : b64Val c = some v) :
    a2bLoop (c :: rest) 0 0 0 acc = a2bLoop rest 1 v 0 acc := by
  conv_lhs => unfold a2bLoop
  rw [if_neg hc, hv]

/-- One decode step at quadruple position 1. -/
theorem a2bLoop_step1 (c : Char) (v l : Nat) (rest : List Char) (acc : List Nat)
    (hc : c ≠ '=') (hv : b64Val c = some v) :
    a2bLoop (c :: rest) 1 l 0 acc =
      a2bLoop rest 2 (v % 16) 0 (acc ++ [l * 4 + v / 16]) := by
  conv_lhs => unfold a2bLoop
  rw [if_neg hc, hv]

/-- One decode step at quadruple position 2. -/
theorem a2bLoop_step2 (c : Char) (v l : Nat) (rest : List Char) (acc : List Nat)
    (hc : c ≠ '=') (hv : b64Val c = some v) :
    a2bLoop (c :: rest) 2 l 0 acc =
      a2bLoop rest 3 (v % 4) 0 (acc ++ [l * 16 + v / 4]) := by
  conv_lhs => unfold a2bLoop
  rw [if_neg hc, hv]

/-- One decode step at quadruple position 3. -/
theorem a2bLoop_step3 (c : Char) (v l : Nat) (rest : List Char) (acc : List Nat)
    (hc : c ≠ '=') (hv : b64Val c = some v) :
    a2bLoop (c :: rest) 3 l 0 acc = a2bLoop rest 0 0 0 (acc ++ [l * 64 + v]) := by
  conv_lhs => unfold a2bLoop
  rw [if_neg hc, hv]

/-- Two padding characters complete a quadruple at position 2. -/
theorem a2bLoop_pad2 (l : Nat) (acc : List Nat) :
    a2bLoop ['=', '='] 2 l 0 acc = .ok acc := rfl

/-- One padding character completes a quadruple at position 3. -/
theorem a2bLoop_pad3 (l : Nat) (acc : List Nat) :
    a2bLoop ['='] 3 l 0 acc = .ok acc := rfl

/-- Decoding the translated unpadded encoding followed by the restored
padding recovers the original bytes, for every byte list (hence every
input length) and accumulator. -/
theorem a2bLoop_encode : ∀ (bs : List Nat), (∀ x ∈ bs, x < 256) →
    ∀ (acc : List Nat) (pad : Nat),
      pad = (4 - (b64UrlEncodeList bs).length % 4) % 4 →
      a2bLoop ((b64UrlEncodeList bs).map urlsafeTranslate ++
        List.replicate pad '=') 0 0 0 acc = .ok (acc ++ bs)
  | [], _, acc, pad, hpad => by
      simp [b64UrlEncodeList] at hpad
      subst hpad
      simp [b64UrlEncodeList, a2bLoop]
  | [a], hb, acc, pad, hpad => by
      have ha : a < 256 := hb a (by simp)
      simp [b64UrlEncodeList] at hpad
      subst hpad
      show a2bLoop (urlsafeTranslate (b64UrlChar (a / 4)) ::
        urlsafeTranslate (b64UrlChar (a % 4 * 16)) :: ['=', '=']) 0 0 0 acc =
        .ok (acc ++ [a])
      rw [a2bLoop_step0 _ (a / 4) _ _ (b64UrlChar_ne_pad _ (by omega))
            (b64UrlChar_val _ (by omega)),
          a2bLoop_step1 _ (a % 4 * 16) _ _ _ (b64UrlChar_ne_pad _ (by omega))
            (b64UrlChar_val _ (by omega)),
          a2bLoop_pad2]
      have h1 : a / 4 * 4 + a % 4 * 16 / 16 = a := by omega
      rw [h1]
  | [a, b], hb, acc, pad, hpad => by
      have ha : a < 256 := hb a (by simp)
      have hbb : b < 256 := hb b (by simp)
      simp [b64UrlEncodeList] at hpad
      subst hpad
      show a2bLoop (urlsafeTranslate (b64UrlChar (a / 4)) ::
        urlsafeTranslate (b64UrlChar (a % 4 * 16 + b / 16)) ::
        urlsafeTranslate (b64UrlChar (b % 16 * 4)) :: ['=']) 0 0 0 acc =
        .ok (acc ++ [a, b])
      rw [a2bLoop_step0 _ (a / 4) _ _ (b64UrlChar_ne_pad _ (by omega))
            (b64UrlChar_val _ (by omega)),
          a2bLoop_step1 _ (a % 4 * 16 + b / 16) _ _ _
            (b64UrlChar_ne_pad _ (by omega)) (b64UrlChar_val _ (by omega)),
          a2bLoop_step2 _ (b % 16 * 4) _ _ _
            (b64UrlChar_ne_pad _ (by omega)) (b64UrlChar_val _ (by omega)),
          a2bLoop_pad3]
      have h1 : a / 4 * 4 + (a % 4 * 16 + b / 16) / 16 = a := by omega
      have h2 : (a % 4 * 16 + b / 16) % 16 * 16 + b % 16 * 4 / 4 = b := by omega
      rw [h1, h2]
      simp
  | a :: b :: c :: rest, hb, acc, pad, hpad => by
      have ha : a < 256 := hb a (by simp)
      have hbb : b < 256 := hb b (by simp)
      have hc : c < 256 := hb c (by simp)
      have hrest : ∀ x ∈ rest, x < 256 := fun x hx => hb x (by simp [hx])
      have hlen : (b64UrlEncodeList (a :: b :: c :: rest)).length =
          (b64UrlEncodeList rest).length + 4 := by
        simp [b64UrlEncodeList]
      have hpad2 : pad = (4 - (b64UrlEncodeList rest).length % 4) % 4 := by
        rw [hpad, hlen]
        omega
      show a2bLoop (urlsafeTranslate (b64UrlChar (a / 4)) ::
        urlsafeTranslate (b64UrlChar (a % 4 * 16 + b / 16)) ::
        urlsafeTranslate (b64UrlChar (b % 16 * 4 + c / 64)) ::
        urlsafeTranslate (b64UrlChar (c % 64)) ::
        ((b64UrlEncodeList rest).map urlsafeTranslate ++
          List.replicate pad '=')) 0 0 0 acc = .ok (acc ++ (a :: b :: c :: rest))
      rw [a2bLoop_step0 _ (a / 4) _ _ (b64UrlChar_ne_pad _ (by omega))
            (b64UrlChar_val _ (by omega)),
          a2bLoop_step1 _ (a % 4 * 16 + b / 16) _ _ _
            (b64UrlChar_ne_pad _ (by omega)) (b64UrlChar_val _ (by omega)),
          a2bLoop_step2 _ (b % 16 * 4 + c / 64) _ _ _
            (b64UrlChar_ne_pad _ (by omega)) (b64UrlChar_val _ (by omega)),
          a2bLoop_step3 _ (c % 64) _ _ _
            (b64UrlChar_ne_pad _ (by omega)) (b64UrlChar_val _ (by omega))]
      have h1 : a / 4 * 4 + (a % 4 * 16 + b / 16) / 16 = a := by omega
      have h2 : (a % 4 * 16 + b / 16) % 16 * 16 + (b % 16 * 4 + c / 64) / 4 = b := by
        omega
      have h3 : (b % 16 * 4 + c / 64) % 4 * 64 + c % 64 = c := by omega
      rw [h1, h2, h3,
          a2bLoop_encode rest hrest (acc ++ [a] ++ [b] ++ [c]) pad hpad2]
      simp

/-- C8 core, byte level: `b64url_decode` inverts the unpadded Base64URL
encoding on every byte list. -/
theorem b64url_decode_encode (bs : List Nat) (hb : ∀ x ∈ bs, x < 256) :
    b64url_decode (b64UrlEncode bs) = .ok bs := by
  unfold b64url_decode b64UrlEncode
  have hmap : ∀ n : Nat, (List.replicate n '=').map urlsafeTranslate =
      List.replicate n '=' := by
    intro n
    rw [List.map_replicate]
    rfl
  show a2bLoop ((b64UrlEncodeList bs ++
      List.replicate ((4 - (b64UrlEncodeList bs).length % 4) % 4) '=').map
        urlsafeTranslate) 0 0 0 [] = .ok bs
  rw [List.map_append, hmap]
  have := a2bLoop_encode bs hb [] ((4 - (b64UrlEncodeList bs).length % 4) % 4) rfl
  simpa using this

/-- Every character code point is below 1114112. -/
theorem char_toNat_lt (c : Char) : c.toNat < 1114112 := by
  have h := c.valid
  rcases h with h | ⟨h1, h2⟩ <;> · unfold Char.toNat; omega

/-- UTF-8 encoded bytes are bytes. -/
theorem utf8EncodeChar_lt_256 (c : Char) : ∀ x ∈ utf8EncodeChar c, x < 256 := by
  have hv := char_toNat_lt c
  intro x hx
  have hx2 : x ∈ (if c.toNat < 128 then [c.toNat]
      else if c.toNat < 2048 then [192 + c.toNat / 64, 128 + c.toNat % 64]
      else if c.toNat < 65536 then
        [224 + c.toNat / 4096, 128 + c.toNat / 64 % 64, 128 + c.toNat % 64]
      else [240 + c.toNat / 262144, 128 + c.toNat / 4096 % 64,
            128 + c.toNat / 64 % 64, 128 + c.toNat % 64]) := hx
  split at hx2
  · simp only [List.mem_singleton] at hx2
    omega
  · split at hx2
    · simp only [List.mem_cons, List.not_mem_nil, or_false] at hx2
      rcases hx2 with h | h <;> omega
    · split at hx2
      · simp only [List.mem_cons, List.not_mem_nil, or_false] at hx2
        rcases hx2 with h | h | h <;> omega
      · simp only [List.mem_cons, List.not_mem_nil, or_false] at hx2
        rcases hx2 with h | h | h | h <;> omega

/-- UTF-8 encoded strings are byte lists. -/
theorem utf8Encode_lt_256 (s : String) : ∀ x ∈ utf8Encode s, x < 256 := by
  intro x hx
  unfold utf8Encode at hx
  rw [List.mem_flatten] at hx
  obtain ⟨l, hl, hxl⟩ := hx
  rw [List.mem_map] at hl
  obtain ⟨c, _, rfl⟩ := hl
  exact utf8EncodeChar_lt_256 c x hxl

/-- UTF-8 decoding inverts UTF-8 encoding on ASCII strings (loop form). -/
theorem utf8Loop_ascii : ∀ cs : List Char, (∀ c ∈ cs, c.toNat < 128) →
    ∀ out, utf8Loop ((cs.map utf8EncodeChar).flatten) 0 0 0 out =
      some (out ++ cs) := by
  intro cs
  induction cs with
  | nil => intro _ out; simp [utf8Loop]
  | cons c t ih =>
      intro h out
      have hc : c.toNat < 128 := h c (by simp)
      have ht : ∀ x ∈ t, x.toNat < 128 := fun x hx => h x (by simp [hx])
      show utf8Loop (utf8EncodeChar c ++ (t.map utf8EncodeChar).flatten)
        0 0 0 out = _
      have henc : utf8EncodeChar c = [c.toNat] := by
        have h0 : utf8EncodeChar c = (if c.toNat < 128 then [c.toNat]
            else if c.toNat < 2048 then [192 + c.toNat / 64, 128 + c.toNat % 64]
            else if c.toNat < 65536 then
              [224 + c.toNat / 4096, 128 + c.toNat / 64 % 64, 128 + c.toNat % 64]
            else [240 + c.toNat / 262144, 128 + c.toNat / 4096 % 64,
                  128 + c.toNat / 64 % 64, 128 + c.toNat % 64]) := rfl
        rw [h0, if_pos hc]
      rw [henc]
      show utf8Loop (c.toNat :: (t.map utf8EncodeChar).flatten) 0 0 0 out = _
      conv_lhs => unfold utf8Loop
      rw [if_pos hc, ih ht (out ++ [Char.ofNat c.toNat])]
      simp [Char.ofNat_toNat]

/-- UTF-8 decoding inverts UTF-8 encoding on ASCII strings. -/
theorem utf8Decode_ascii (cs : List Char) (h : ∀ c ∈ cs, c.toNat < 128) :
    utf8Decode ((cs.map utf8EncodeChar).flatten) = some cs := by
  unfold utf8Decode
  rw [utf8Loop_ascii cs h []]
  simp

/-- Every character produced by the encoder is some `b64UrlChar v`. -/
theorem b64UrlEncodeList_chars : ∀ (bs : List Nat), (∀ x ∈ bs, x < 256) →
    ∀ ch ∈ b64UrlEncodeList bs, ∃ v, v < 64 ∧ ch = b64UrlChar v
  | [], _, ch, h => by simp [b64UrlEncodeList] at h
  | [a], hb, ch, h => by
      have ha : a < 256 := hb a (by simp)
      simp [b64UrlEncodeList] at h
      rcases h with h | h
      · exact ⟨a / 4, by omega, h⟩
      · exact ⟨a % 4 * 16, by omega, h⟩
  | [a, b], hb, ch, h => by
      have ha : a < 256 := hb a (by simp)
      have hbb : b < 256 := hb b (by simp)
      simp [b64UrlEncodeList] at h
      rcases h with h | h | h
      · exact ⟨a / 4, by omega, h⟩
      · exact ⟨a % 4 * 16 + b / 16, by omega, h⟩
      · exact ⟨b % 16 * 4, by omega, h⟩
  | a :: b :: c :: rest, hb, ch, h => by
      have ha : a < 256 := hb a (by simp)
      have hbb : b < 256 := hb b (by simp)
      have hc : c < 256 := hb c (by simp)
      have hrest : ∀ x ∈ rest, x < 256 := fun x hx => hb x (by simp [hx])
      rw [show b64UrlEncodeList (a :: b :: c :: rest) =
        b64UrlChar (a / 4) :: b64UrlChar (a % 4 * 16 + b / 16) ::
        b64UrlChar (b % 16 * 4 + c / 64) :: b64UrlChar (c % 64) ::
        b64UrlEncodeList rest from rfl] at h
      simp only [List.mem_cons] at h
      rcases h with h | h | h | h | h
      · exact ⟨a / 4, by omega, h⟩
      · exact ⟨a % 4 * 16 + b / 16, by omega, h⟩
      · exact ⟨b % 16 * 4 + c / 64, by omega, h⟩
      · exact ⟨c % 64, by omega, h⟩
      · exact b64UrlEncodeList_chars rest hrest ch h

/-- Encoded segments never contain the dot separator. -/
theorem b64UrlEncodeList_no_dot (bs : List Nat) (hb : ∀ x ∈ bs, x < 256) :
    ∀ ch ∈ b64UrlEncodeList bs, ch ≠ '.' := by
  intro ch h
  obtain ⟨v, hv, rfl⟩ := b64UrlEncodeList_chars bs hb ch h
  exact b64UrlChar_ne_dot v hv

/-- Splitting a separator-free list yields one piece. -/
theorem splitCharAux_no_sep (sep : Char) :
    ∀ (l cur : List Char), (∀ ch ∈ l, ch ≠ sep) →
      splitCharAux sep l cur = [cur.reverse ++ l] := by
  intro l
  induction l with
  | nil => intro cur _; simp [splitCharAux]
  | cons c t ih =>
      intro cur h
      have hc : c ≠ sep := h c (by simp)
      have ht : ∀ ch ∈ t, ch ≠ sep := fun x hx => h x (by simp [hx])
      unfold splitCharAux
      rw [if_neg hc, ih (c :: cur) ht]
      simp

/-- Splitting peels one separator-free piece before a separator. -/
theorem splitCharAux_sep (sep : Char) :
    ∀ (l rest cur : List Char), (∀ ch ∈ l, ch ≠ sep) →
      splitCharAux sep (l ++ sep :: rest) cur =
        (cur.reverse ++ l) :: splitCharAux sep rest [] := by
  intro l
  induction l with
  | nil =>
      intro rest cur _
      show splitCharAux sep (sep :: rest) cur = _
      conv_lhs => unfold splitCharAux
      rw [if_pos rfl]
      simp
  | cons c t ih =>
      intro rest cur h
      have hc : c ≠ sep := h c (by simp)
      have ht : ∀ ch ∈ t, ch ≠ sep := fun x hx => h x (by simp [hx])
      show splitCharAux sep (c :: (t ++ sep :: rest)) cur = _
      conv_lhs => unfold splitCharAux
      rw [if_neg hc, ih rest (c :: cur) ht]
      simp

/-- A dotted join of three dot-free segments splits back into them. -/
theorem pySplit_parts (s1 s2 s3 : List Char)
    (h1 : ∀ ch ∈ s1, ch ≠ '.') (h2 : ∀ ch ∈ s2, ch ≠ '.')
    (h3 : ∀ ch ∈ s3, ch ≠ '.') :
    pySplit (String.mk s1 ++ "." ++ String.mk s2 ++ "." ++ String.mk s3) '.' =
      [String.mk s1, String.mk s2, String.mk s3] := by
  unfold pySplit
  have hdot : (("." : String)).data = ['.'] := rfl
  have hdata : (String.mk s1 ++ "." ++ String.mk s2 ++ "." ++ String.mk s3).data
      = s1 ++ '.' :: (s2 ++ '.' :: s3) := by
    simp [String.data_append, hdot]
  rw [hdata, splitCharAux_sep '.' s1 _ [] h1,
      splitCharAux_sep '.' s2 _ [] h2, splitCharAux_no_sep '.' s3 [] h3]
  simp

/-- C8 core, token level: a token built from any JSON texts that parse
to `hdr`/`pl` and any signature bytes is decoded by `parse_jwt` back to
exactly `(hdr, pl, sig)`. -/
theorem parse_jwt_mkJwt (ht pt : String) (hdr pl : JsonValue) (sig : List Nat)
    (hsig : ∀ x ∈ sig, x < 256)
    (hh : json_loads (utf8Encode ht) = .ok hdr)
    (hp : json_loads (utf8Encode pt) = .ok pl) :
    parse_jwt (mkJwt ht pt sig) = .ok (hdr, pl, sig) := by
  have hb1 : ∀ x ∈ utf8Encode ht, x < 256 := utf8Encode_lt_256 ht
  have hb2 : ∀ x ∈ utf8Encode pt, x < 256 := utf8Encode_lt_256 pt
  have hsplit : pySplit (mkJwt ht pt sig) '.' =
      [b64UrlEncode (utf8Encode ht), b64UrlEncode (utf8Encode pt),
       b64UrlEncode sig] := by
    unfold mkJwt b64UrlEncode
    exact pySplit_parts _ _ _ (b64UrlEncodeList_no_dot _ hb1)
      (b64UrlEncodeList_no_dot _ hb2) (b64UrlEncodeList_no_dot _ hsig)
  unfold parse_jwt
  rw [hsplit]
  dsimp only
  rw [b64url_decode_encode _ hb1]
  dsimp only
  rw [hh]
  dsimp only
  rw [b64url_decode_encode _ hb2]
  dsimp only
  rw [hp]
  dsimp only
  rw [b64url_decode_encode _ hsig]

/-- `natDigitsAux` is fuel-independent once the fuel exceeds the number. -/
theorem natDigitsAux_congr : ∀ (f g n : Nat), n < f → n < g →
    natDigitsAux f n = natDigitsAux g n := by
  intro f
  induction f with
  | zero => intro g n h _; omega
  | succ f ih =>
      intro g n hf hg
      cases g with
      | zero => omega
      | succ g =>
          show (if n < 10 then [Char.ofNat (48 + n)]
            else natDigitsAux f (n / 10) ++ [Char.ofNat (48 + n % 10)]) =
            (if n < 10 then [Char.ofNat (48 + n)]
            else natDigitsAux g (n / 10) ++ [Char.ofNat (48 + n % 10)])
          by_cases h10 : n < 10
          · rw [if_pos h10, if_pos h10]
          · rw [if_neg h10, if_neg h10, ih g (n / 10) (by omega) (by omega)]

/-- Digits of a one-digit number. -/
theorem natDigits_small (n : Nat) (h : n < 10) :
    natDigits n = [Char.ofNat (48 + n)] := by
  show (if n < 10 then [Char.ofNat (48 + n)]
    else natDigitsAux n (n / 10) ++ [Char.ofNat (48 + n % 10)]) = _
  rw [if_pos h]

/-- Digits of a multi-digit number. -/
theorem natDigits_ten (n : Nat) (h : 10 ≤ n) :
    natDigits n = natDigits (n / 10) ++ [Char.ofNat (48 + n % 10)] := by
  show (if n < 10 then [Char.ofNat (48 + n)]
    else natDigitsAux n (n / 10) ++ [Char.ofNat (48 + n % 10)]) = _
  rw [if_neg (by omega), natDigitsAux_congr n (n / 10 + 1) (n / 10) (by omega)
    (by omega)]
  rfl

/-- Facts about decimal digit characters used by the parser. -/
theorem digitChar_table : ∀ d : Fin 10,
    (Char.ofNat (48 + d.val)).isDigit = true ∧
    (Char.ofNat (48 + d.val)).toNat - 48 = d.val ∧
    isJsonWs (Char.ofNat (48 + d.val)) = false ∧
    Char.ofNat (48 + d.val) ≠ lbraceChar ∧
    Char.ofNat (48 + d.val) ≠ '[' ∧
    Char.ofNat (48 + d.val) ≠ quoteChar ∧
    Char.ofNat (48 + d.val) ≠ 't' ∧
    Char.ofNat (48 + d.val) ≠ 'f' ∧
    Char.ofNat (48 + d.val) ≠ 'n' ∧
    Char.ofNat (48 + d.val) ≠ '-' ∧
    (d.val ≠ 0 → Char.ofNat (48 + d.val) ≠ '0') ∧
    (Char.ofNat (48 + d.val)).toNat < 128 := by decide

/-- Every digit character of a number is `Char.ofNat (48 + d)` with
`d < 10`. -/
theorem natDigits_mem : ∀ (n : Nat), ∀ c ∈ natDigits n,
    ∃ d, d < 10 ∧ c = Char.ofNat (48 + d) := by
  intro n
  induction n using Nat.strong_induction_on with
  | _ n ih =>
      by_cases h10 : n < 10
      · rw [natDigits_small n h10]
        intro c hc
        simp only [List.mem_singleton] at hc
        exact ⟨n, h10, hc⟩
      · rw [natDigits_ten n (by omega)]
        intro c hc
        rw [List.mem_append] at hc
        rcases hc with hc | hc
        · exact ih (n / 10) (by omega) c hc
        · simp only [List.mem_singleton] at hc
          exact ⟨n % 10, by omega, hc⟩

/-- `parseDigitsAcc` stops at a non-digit (or the end). -/
theorem parseDigitsAcc_stop : ∀ (acc : Nat) (rest : List Char),
    (∀ c, rest.head? = some c → c.isDigit = false) →
    parseDigitsAcc acc rest = (acc, rest) := by
  intro acc rest h
  cases rest with
  | nil => rfl
  | cons c t =>
      show (if c.isDigit then parseDigitsAcc (acc * 10 + (c.toNat - 48)) t
        else (acc, c :: t)) = _
      rw [if_neg (by simp [h c rfl])]

/-- Decimal decomposition of `natDigits n`: a leading digit (nonzero for
multi-digit numbers) followed by a tail that `parseDigitsAcc` folds back
into the value. -/
theorem natDigits_decomp : ∀ n : Nat, ∃ d ds v,
    natDigits n = Char.ofNat (48 + d) :: ds ∧ d < 10 ∧
    (0 < n → 0 < d) ∧ n = d * 10 ^ ds.length + v ∧ v < 10 ^ ds.length ∧
    (∀ acc rest, parseDigitsAcc acc (ds ++ rest) =
      parseDigitsAcc (acc * 10 ^ ds.length + v) rest) := by
  intro n
  induction n using Nat.strong_induction_on with
  | _ n ih =>
      by_cases h10 : n < 10
      · refine ⟨n, [], 0, by rw [natDigits_small n h10], h10, fun h => h, by simp,
          by simp, ?_⟩
        intro acc rest
        simp
      · obtain ⟨d, ds, v, hds, hd10, hpos, hval, hvlt, hparse⟩ :=
          ih (n / 10) (by omega)
        refine ⟨d, ds ++ [Char.ofNat (48 + n % 10)], v * 10 + n % 10, ?_, hd10,
          fun _ => hpos (by omega), ?_, ?_, ?_⟩
        · rw [natDigits_ten n (by omega), hds]
          simp
        · have hp : (10 : Nat) ^ (ds ++ [Char.ofNat (48 + n % 10)]).length =
              10 ^ ds.length * 10 := by
            simp [pow_succ]
          rw [hp]
          have hn : n = (n / 10) * 10 + n % 10 := by omega
          calc n = (n / 10) * 10 + n % 10 := hn
            _ = (d * 10 ^ ds.length + v) * 10 + n % 10 := by rw [← hval]
            _ = d * (10 ^ ds.length * 10) + (v * 10 + n % 10) := by ring
        · have hp : (10 : Nat) ^ (ds ++ [Char.ofNat (48 + n % 10)]).length =
              10 ^ ds.length * 10 := by
            simp [pow_succ]
          rw [hp]
          have := Nat.mod_lt n (show 0 < 10 by omega)
          omega
        · intro acc rest
          have hstep : parseDigitsAcc (acc * 10 ^ ds.length + v)
              (Char.ofNat (48 + n % 10) :: rest) =
              parseDigitsAcc ((acc * 10 ^ ds.length + v) * 10 + n % 10) rest := by
            show (if (Char.ofNat (48 + n % 10)).isDigit then
                parseDigitsAcc ((acc * 10 ^ ds.length + v) * 10 +
                  ((Char.ofNat (48 + n % 10)).toNat - 48)) rest
              else _) = _
            rw [if_pos (digitChar_table ⟨n % 10, by omega⟩).1,
              (digitChar_table ⟨n % 10, by omega⟩).2.1]
          have hp : (10 : Nat) ^ (ds ++ [Char.ofNat (48 + n % 10)]).length =
              10 ^ ds.length * 10 := by
            simp [pow_succ]
          rw [List.append_assoc, List.singleton_append,
            hparse acc (Char.ofNat (48 + n % 10) :: rest), hstep, hp]
          congr 1
          ring

/-- `parseJsonNat` reads back the decimal digits of any natural number
when no further digit follows. -/
theorem parseJsonNat_natDigits (n : Nat) (rest : List Char)
    (hrest : ∀ c, rest.head? = some c → c.isDigit = false) :
    parseJsonNat (natDigits n ++ rest) = some (n, rest) := by
  by_cases h10 : n < 10
  · rw [natDigits_small n h10]
    by_cases h0 : n = 0
    · subst h0
      have hzc : Char.ofNat (48 + 0) = '0' := by decide
      rw [hzc]
      rfl
    · obtain ⟨hdig, htn, _, _, _, _, _, _, _, _, hz, _⟩ :=
        digitChar_table ⟨n, h10⟩
      show (if Char.ofNat (48 + n) = '0' then some (0, rest)
        else if (Char.ofNat (48 + n)).isDigit then
          some (parseDigitsAcc ((Char.ofNat (48 + n)).toNat - 48) rest)
        else none) = _
      rw [if_neg (hz h0), if_pos hdig, htn, parseDigitsAcc_stop n rest hrest]
  · obtain ⟨d, ds, v, hds, hd10, hpos, hval, hvlt, hparse⟩ := natDigits_decomp n
    obtain ⟨hdig, htn, _, _, _, _, _, _, _, _, hz, _⟩ := digitChar_table ⟨d, hd10⟩
    rw [hds]
    show (if Char.ofNat (48 + d) = '0' then some (0, ds ++ rest)
      else if (Char.ofNat (48 + d)).isDigit then
        some (parseDigitsAcc ((Char.ofNat (48 + d)).toNat - 48) (ds ++ rest))
      else none) = _
    rw [if_neg (hz (by show d ≠ 0; have := hpos (by omega); omega)), if_pos hdig, htn,
      hparse d rest, parseDigitsAcc_stop _ rest hrest, ← hval]

/-- `parseNumber` reads back the decimal digits of any natural number. -/
theorem parseNumber_natDigits (n : Nat) (rest : List Char)
    (hrest : ∀ c, rest.head? = some c → c.isDigit = false) :
    parseNumber (natDigits n ++ rest) = some ((n : Int), rest) := by
  obtain ⟨d, ds, v, hds, hd10, _, _, _, _⟩ := natDigits_decomp n
  obtain ⟨_, _, _, _, _, _, _, _, _, hmc, _, _⟩ := digitChar_table ⟨d, hd10⟩
  have hcons : natDigits n ++ rest = Char.ofNat (48 + d) :: (ds ++ rest) := by
    rw [hds]
    rfl
  rw [hcons]
  conv_lhs => unfold parseNumber
  dsimp only
  rw [if_neg hmc, ← hcons, parseJsonNat_natDigits n rest hrest]
  rfl

/-- `parseValue` on input starting with a character that opens no other
branch falls through to the number parser. -/
theorem parseValue_not_ws_step (fuel : Nat) (c : Char) (z : List Char)
    (hws : isJsonWs c = false) (hlb : c ≠ lbraceChar) (hbr : c ≠ '[')
    (hq : c ≠ quoteChar) (ht : c ≠ 't') (hf : c ≠ 'f') (hn : c ≠ 'n') :
    parseValue (fuel + 1) (c :: z) =
      (parseNumber (c :: z)).map (fun (m, r) => (JsonValue.num m, r)) := by
  have hskip : skipWs (c :: z) = c :: z := by
    show List.dropWhile isJsonWs _ = _
    rw [List.dropWhile_cons]
    simp [hws]
  conv_lhs => unfold parseValue
  rw [hskip]
  dsimp only
  rw [if_neg hlb, if_neg hbr, if_neg hq, if_neg ht, if_neg hf, if_neg hn]

/-- `parseValue` reads back a natural-number literal. -/
theorem parseValue_natDigits (fuel n : Nat) (rest : List Char)
    (hrest : ∀ c, rest.head? = some c → c.isDigit = false) :
    parseValue (fuel + 1) (natDigits n ++ rest) =
      some (.num (n : Int), rest) := by
  obtain ⟨d, ds, v, hds, hd10, _, _, _, _⟩ := natDigits_decomp n
  obtain ⟨hdig, htn, hws, hlb, hbr, hq, htc, hfc, hnc, hmc, hz, hascii⟩ :=
    digitChar_table ⟨d, hd10⟩
  have hcons : natDigits n ++ rest = Char.ofNat (48 + d) :: (ds ++ rest) := by
    rw [hds]
    rfl
  rw [hcons, parseValue_not_ws_step fuel _ _ hws hlb hbr hq htc hfc hnc,
    ← hcons, parseNumber_natDigits n rest hrest]
  rfl

/-- The closing brace is not a digit. -/
theorem rbraceChar_not_digit : rbraceChar.isDigit = false := by decide

/-- Plain-character step of the string scanner. -/
theorem parseStrLoop_plain (c : Char) (z out : List Char)
    (h1 : c ≠ quoteChar) (h2 : c ≠ backslashChar) (h3 : ¬c.toNat < 32) :
    parseStrLoop (c :: z) 0 0 0 out = parseStrLoop z 0 0 0 (out ++ [c]) := by
  conv_lhs => unfold parseStrLoop
  rw [if_pos rfl, if_neg h1, if_neg h2, if_neg h3]

/-- Closing-quote step of the string scanner. -/
theorem parseStrLoop_quote (z out : List Char) :
    parseStrLoop (quoteChar :: z) 0 0 0 out = some (out, z) := by
  conv_lhs => unfold parseStrLoop
  rw [if_pos rfl, if_pos rfl]

/-- `parseValue` on the text of `{"exp": n}` returns the singleton
object, for every `n` and enough fuel. -/
theorem parseValue_expPayload (n : Nat) (fuel : Nat) :
    parseValue (fuel + 3) (expPayloadText n).data =
      some (.obj [("exp", .num (n : Int))], []) := by
  have hv : parseValue (fuel + 1) (' ' :: (natDigits n ++ [rbraceChar])) =
      some (.num (n : Int), [rbraceChar]) := by
    have h0 : parseValue (fuel + 1) (' ' :: (natDigits n ++ [rbraceChar])) =
        parseValue (fuel + 1) (natDigits n ++ [rbraceChar]) := rfl
    rw [h0]
    exact parseValue_natDigits fuel n [rbraceChar] (by
      intro c hc
      injection hc with hc
      subst hc
      exact rbraceChar_not_digit)
  show parseMembers (fuel + 2) [] true (quoteChar :: 'e' :: 'x' :: 'p' ::
    quoteChar :: ':' :: ' ' :: (natDigits n ++ [rbraceChar])) = _
  have hps : parseStringBody ('e' :: 'x' :: 'p' :: quoteChar :: ':' :: ' ' ::
      (natDigits n ++ [rbraceChar])) = some (['e', 'x', 'p'],
      ':' :: ' ' :: (natDigits n ++ [rbraceChar])) := by
    unfold parseStringBody
    rw [parseStrLoop_plain 'e' _ _ (by decide) (by decide) (by decide),
        parseStrLoop_plain 'x' _ _ (by decide) (by decide) (by decide),
        parseStrLoop_plain 'p' _ _ (by decide) (by decide) (by decide),
        parseStrLoop_quote]
    rfl
  have hs1 : skipWs (quoteChar :: 'e' :: 'x' :: 'p' :: quoteChar :: ':' :: ' ' ::
      (natDigits n ++ [rbraceChar])) = quoteChar :: 'e' :: 'x' :: 'p' ::
      quoteChar :: ':' :: ' ' :: (natDigits n ++ [rbraceChar]) := rfl
  have hs2 : skipWs (':' :: ' ' :: (natDigits n ++ [rbraceChar])) =
      ':' :: ' ' :: (natDigits n ++ [rbraceChar]) := rfl
  conv_lhs => unfold parseMembers
  try dsimp only
  rw [hs1]
  try dsimp only
  rw [if_neg (by decide : ¬(quoteChar = rbraceChar ∧ true = true)), if_pos rfl,
    hps]
  try dsimp only
  rw [hs2]
  split
  · rename_i afterColon heq
    injection heq with h1 h2
    subst h2
    rw [hv]
    rfl
  · rename_i x hx
    exact absurd rfl (hx (' ' :: (natDigits n ++ [rbraceChar])))

/-- The payload text of `{"exp": n}` is ASCII. -/
theorem expPayloadText_ascii (n : Nat) :
    ∀ c ∈ (expPayloadText n).data, c.toNat < 128 := by
  intro c hc
  have hdata : (expPayloadText n).data = lbraceChar :: quoteChar :: 'e' :: 'x' ::
      'p' :: quoteChar :: ':' :: ' ' :: (natDigits n ++ [rbraceChar]) := rfl
  rw [hdata] at hc
  simp only [List.mem_cons, List.mem_append, List.mem_singleton] at hc
  rcases hc with h | h | h | h | h | h | h | h | h | h
  · subst h; decide
  · subst h; decide
  · subst h; decide
  · subst h; decide
  · subst h; decide
  · subst h; decide
  · subst h; decide
  · subst h; decide
  · obtain ⟨d, hd, rfl⟩ := natDigits_mem n c h
    exact (digitChar_table ⟨d, hd⟩).2.2.2.2.2.2.2.2.2.2.2
  · rcases h with h | h
    · subst h; decide
    · simp at h

/-- `json.loads` reads the bytes of `{"exp": n}` back to the object with
`exp` mapped to `n`, for every natural `n`. -/
theorem json_loads_expPayload (n : Nat) :
    json_loads (utf8Encode (expPayloadText n)) =
      .ok (.obj [("exp", .num (n : Int))]) := by
  unfold json_loads
  rw [show utf8Encode (expPayloadText n) =
      (((expPayloadText n).data).map utf8EncodeChar).flatten from rfl,
    utf8Decode_ascii _ (expPayloadText_ascii n)]
  dsimp only
  have hlen : (expPayloadText n).data.length = (natDigits n).length + 9 := by
    show (lbraceChar :: quoteChar :: 'e' :: 'x' :: 'p' :: quoteChar :: ':' ::
      ' ' :: (natDigits n ++ [rbraceChar])).length = _
    simp
  have hfuel : (expPayloadText n).data.length + 1 = ((natDigits n).length + 7) + 3 := by
    omega
  rw [hfuel, parseValue_expPayload n ((natDigits n).length + 7)]
  rfl

/-- The header text `{}` is ASCII and parses to the empty object. -/
theorem json_loads_emptyObj :
    json_loads (utf8Encode (String.mk [lbraceChar, rbraceChar])) =
      .ok (.obj []) := rfl

/-- C8: round-trip of `parse_jwt` against the spec encoding.
(1) The `=`-padding restoration inverts unpadded Base64URL for byte
lists of every length.  (2) Any JWT assembled per the spec from JSON
texts of the header and payload and raw signature bytes is decoded back
to exactly those values — no partial or altered data.  (3) In
particular, for header `{}` and payload `{"exp": T}`, decoding recovers
`payload.exp = T` for every `T`. -/
theorem c8_parse_jwt_roundtrip :
    (∀ bs : List Nat, (∀ x ∈ bs, x < 256) →
      b64url_decode (b64UrlEncode bs) = .ok bs) ∧
    (∀ (headerText payloadText : String) (hdr pl : JsonValue) (sig : List Nat),
      (∀ x ∈ sig, x < 256) →
      json_loads (utf8Encode headerText) = .ok hdr →
      json_loads (utf8Encode payloadText) = .ok pl →
      parse_jwt (mkJwt headerText payloadText sig) = .ok (hdr, pl, sig)) ∧
    (∀ (T : Nat) (sig : List Nat), (∀ x ∈ sig, x < 256) →
      parse_jwt (mkExpToken T sig) =
        .ok (.obj [], .obj [("exp", .num (T : Int))], sig)) := by
  refine ⟨b64url_decode_encode, parse_jwt_mkJwt, ?_⟩
  intro T sig hsig
  exact parse_jwt_mkJwt _ _ _ _ sig hsig json_loads_emptyObj
    (json_loads_expPayload T)

/-- C8 (witness): concrete instances of all three parts — a 5-byte
round trip, and the example token with `exp` 1712345678. -/
theorem c8_witness :
    b64url_decode (b64UrlEncode [0, 77, 128, 255, 6]) = .ok [0, 77, 128, 255, 6] ∧
    parse_jwt (mkExpToken 1712345678 [9, 8, 7]) =
      .ok (.obj [], .obj [("exp", .num 1712345678)], [9, 8, 7]) :=
  ⟨c8_parse_jwt_roundtrip.1 [0, 77, 128, 255, 6] (by decide),
   c8_parse_jwt_roundtrip.2.2 1712345678 [9, 8, 7] (by decide)⟩
